import Mathlib

/-!
Verification of the failure-detection and reader-failover core of the
aws-advanced-python-wrapper repository, as a shallow embedding in Lean.

Time values are nanoseconds modelled as Int (Python integers are unbounded
and the code subtracts them freely).  Side effects (aborting a connection,
marking availability, setting the shared timeout event, closing a
connection) are returned explicitly as extra components of each function's
result.  Concurrency is resolved by oracle parameters: completion order and
completed-count of each future batch, the random shuffles, and loop fuel.
-/

/- ### MonitoringContext (host_monitoring_plugin.py, lines 176-271) -/

/-- State of MonitoringContext.  has_connection records whether the target
connection recorded at construction is non-null (the abort path checks it). -/
structure MonitoringContext where
  failure_detection_time_ms : Int
  failure_detection_interval_ms : Int
  failure_detection_count : Int
  monitor_start_time_ns : Int
  active_monitoring_start_time_ns : Int
  unavailable_host_start_time_ns : Int
  current_failure_count : Int
  is_host_unavailable : Bool
  is_active : Bool
  has_connection : Bool
deriving DecidableEq

/-- MonitoringContext.set_monitor_start_time_ns (lines 226-228). -/
def set_monitor_start_time_ns (ctx : MonitoringContext) (start_time_ns : Int) :
    MonitoringContext :=
  { ctx with
    monitor_start_time_ns := start_time_ns
    active_monitoring_start_time_ns :=
      start_time_ns + ctx.failure_detection_time_ms * 1000000 }

/-- MonitoringContext._set_host_availability (lines 248-271).  The second
component counts invocations of dialect.abort_connection performed by
MonitoringContext._abort_connection (lines 230-237): the abort body runs only
when the connection is non-null and the context active, and any exception it
raises is swallowed.  The url argument is used only for logging. -/
def set_host_availability (ctx : MonitoringContext) (url : String)
    (is_available : Bool)
    (status_check_start_time_ns status_check_end_time_ns : Int) :
    MonitoringContext × Nat :=
  if is_available then
    ({ ctx with
        current_failure_count := 0
        unavailable_host_start_time_ns := 0
        is_host_unavailable := false }, 0)
  else
    let ctx1 := { ctx with current_failure_count := ctx.current_failure_count + 1 }
    let ctx2 :=
      if ctx1.unavailable_host_start_time_ns ≤ 0 then
        { ctx1 with unavailable_host_start_time_ns := status_check_start_time_ns }
      else ctx1
    let unavailable_host_duration_ns :=
      status_check_end_time_ns - ctx2.unavailable_host_start_time_ns
    let max_unavailable_host_duration_ms :=
      ctx2.failure_detection_interval_ms * max 0 ctx2.failure_detection_count
    if unavailable_host_duration_ns > max_unavailable_host_duration_ms * 1000000 then
      ({ ctx2 with is_host_unavailable := true },
        if ctx2.has_connection && ctx2.is_active then 1 else 0)
    else
      (ctx2, 0)

/-- MonitoringContext.update_host_status (lines 239-246). -/
def update_host_status (ctx : MonitoringContext) (url : String)
    (status_check_start_time_ns status_check_end_time_ns : Int)
    (is_available : Bool) : MonitoringContext × Nat :=
  if !ctx.is_active then (ctx, 0)
  else
    let total_elapsed_time_ns := status_check_end_time_ns - ctx.monitor_start_time_ns
    if total_elapsed_time_ns > ctx.failure_detection_time_ms * 1000000 then
      set_host_availability ctx url is_available
        status_check_start_time_ns status_check_end_time_ns
    else (ctx, 0)

/-- One recorded call to update_host_status. -/
structure StatusUpdate where
  url : String
  start_ns : Int
  end_ns : Int
  is_available : Bool

/-- A sequence of update_host_status calls applied to a context. -/
def applyStatusUpdates (ctx : MonitoringContext) (calls : List StatusUpdate) :
    MonitoringContext :=
  calls.foldl
    (fun c u => (update_host_status c u.url u.start_ns u.end_ns u.is_available).1) ctx

/- ### HostMonitoringPlugin.execute, exit path (host_monitoring_plugin.py,
lines 117-133) -/

/-- Outcome of HostMonitoringPlugin.execute for the caller. -/
inductive ExecOutcome (α : Type) where
  | ok (result : α)
  | hostUnavailableError
deriving DecidableEq

/-- The finally-block of HostMonitoringPlugin.execute after stop_monitoring,
given the stopped context's verdict, whether plugin_service.dialect is
non-null, and whether dialect.is_closed(connection) answered true.  Returns
the caller-visible outcome, whether the monitoring host aliases were marked
NOT_AVAILABLE, and whether connection.close() was attempted (its exceptions
are swallowed). -/
def executeVerdictFinish {α : Type} (is_host_unavailable : Bool)
    (dialect_present : Bool) (connection_closed : Bool) (result : α) :
    ExecOutcome α × Bool × Bool :=
  if is_host_unavailable then
    if dialect_present && !connection_closed then
      (ExecOutcome.hostUnavailableError, true, true)
    else
      (ExecOutcome.ok result, true, false)
  else
    (ExecOutcome.ok result, false, false)

/- ### Shared helper lemmas for the monitoring side -/

lemma update_host_status_failure_keeps_flag (ctx : MonitoringContext)
    (url : String) (s e : Int) (h : ctx.is_host_unavailable = true) :
    (update_host_status ctx url s e false).1.is_host_unavailable = true := by
  unfold update_host_status set_host_availability
  split
  · exact h
  · simp only [Bool.false_eq_true, if_false]
    split
    · split <;> split <;> simp_all
    · exact h

/- ### Claim theorems (monitoring side) -/

/-- Claim C5: update_host_status is a complete no-op (state unchanged, no
abort) whenever the context is inactive or the probe end lies within the
grace period, i.e. probe_end is at most monitor_start_time +
failure_detection_time_ms (in nanoseconds); hence no state update occurs
before the grace deadline, whatever the probe outcome. -/
theorem update_host_status_grace_noop (ctx : MonitoringContext) (url : String)
    (s e : Int) (is_available : Bool)
    (h : ctx.is_active = false ∨
      e ≤ ctx.monitor_start_time_ns + ctx.failure_detection_time_ms * 1000000) :
    update_host_status ctx url s e is_available = (ctx, 0) := by
  unfold update_host_status
  rcases h with h | h
  · simp [h]
  · have : ¬ (e - ctx.monitor_start_time_ns > ctx.failure_detection_time_ms * 1000000) := by
      omega
    cases hact : ctx.is_active <;> simp [hact, this]

/-- Witness for C5: a concrete probe ending exactly at the grace deadline is
ignored. -/
theorem update_host_status_grace_noop_witness :
    update_host_status
      { failure_detection_time_ms := 5
        failure_detection_interval_ms := 1
        failure_detection_count := 3
        monitor_start_time_ns := 0
        active_monitoring_start_time_ns := 5000000
        unavailable_host_start_time_ns := 0
        current_failure_count := 0
        is_host_unavailable := false
        is_active := true
        has_connection := true }
      "host-a" 4000000 5000000 false =
      ({ failure_detection_time_ms := 5
         failure_detection_interval_ms := 1
         failure_detection_count := 3
         monitor_start_time_ns := 0
         active_monitoring_start_time_ns := 5000000
         unavailable_host_start_time_ns := 0
         current_failure_count := 0
         is_host_unavailable := false
         is_active := true
         has_connection := true }, 0) :=
  update_host_status_grace_noop _ _ _ _ _ (Or.inr (by norm_num))

/-- Claim C4: for an active, not-yet-unavailable context with a target
connection, a failed probe reported after the grace window increments
current_failure_count, sets unavailable_since to probe_start when it was
not positive, and sets the unavailable verdict (with exactly one abort of
the target connection) exactly when probe_end - unavailable_since strictly
exceeds failure_detection_interval_ms * max 0 failure_detection_count
(converted to nanoseconds); with failure_detection_count = 0 and a fresh
unavailable_since, any failed probe with probe_end > probe_start yields the
verdict. -/
theorem update_host_status_failed_probe_spec (ctx : MonitoringContext)
    (url : String) (s e : Int)
    (hact : ctx.is_active = true)
    (hconn : ctx.has_connection = true)
    (hun : ctx.is_host_unavailable = false)
    (hgrace : e - ctx.monitor_start_time_ns > ctx.failure_detection_time_ms * 1000000) :
    (update_host_status ctx url s e false).1.current_failure_count =
        ctx.current_failure_count + 1 ∧
    (update_host_status ctx url s e false).1.unavailable_host_start_time_ns =
        (if ctx.unavailable_host_start_time_ns ≤ 0 then s
         else ctx.unavailable_host_start_time_ns) ∧
    ((update_host_status ctx url s e false).1.is_host_unavailable = true ↔
      e - (if ctx.unavailable_host_start_time_ns ≤ 0 then s
           else ctx.unavailable_host_start_time_ns) >
        ctx.failure_detection_interval_ms * max 0 ctx.failure_detection_count
          * 1000000) ∧
    (update_host_status ctx url s e false).2 =
      (if e - (if ctx.unavailable_host_start_time_ns ≤ 0 then s
               else ctx.unavailable_host_start_time_ns) >
          ctx.failure_detection_interval_ms * max 0 ctx.failure_detection_count
            * 1000000 then 1 else 0) ∧
    (ctx.failure_detection_count = 0 → ctx.unavailable_host_start_time_ns ≤ 0 →
      e > s → (update_host_status ctx url s e false).1.is_host_unavailable = true) := by
  unfold update_host_status set_host_availability
  simp only [hact, Bool.not_true, Bool.false_eq_true, if_false, if_pos hgrace]
  by_cases hz : ctx.unavailable_host_start_time_ns ≤ 0
  · simp only [hz, if_true, ite_true]
    by_cases hd : e - s >
        ctx.failure_detection_interval_ms * max 0 ctx.failure_detection_count * 1000000
    · refine ⟨by simp [hd], by simp [hd], by simp [hd], by simp [hd, hconn, hact], ?_⟩
      intro _ _ _
      simp [hd]
    · refine ⟨by simp [hd], by simp [hd], by simp [hd, hun], by simp [hd], ?_⟩
      intro h0 _ hes
      rw [h0] at hd
      simp only [max_self, mul_zero, zero_mul] at hd
      omega
  · simp only [hz, if_false, ite_false]
    by_cases hd : e - ctx.unavailable_host_start_time_ns >
        ctx.failure_detection_interval_ms * max 0 ctx.failure_detection_count * 1000000
    · refine ⟨by simp [hd], by simp [hd], by simp [hd], by simp [hd, hconn, hact], ?_⟩
      intro _ hz2 _
      exact hz2.elim
    · refine ⟨by simp [hd], by simp [hd], by simp [hd, hun], by simp [hd], ?_⟩
      intro _ hz2 _
      exact hz2.elim

/-- Witness for C4: failure_detection_count = 0, a single post-grace failed
probe flips the verdict and aborts once. -/
theorem update_host_status_failed_probe_spec_witness :
    ((update_host_status
        { failure_detection_time_ms := 5
          failure_detection_interval_ms := 1000
          failure_detection_count := 0
          monitor_start_time_ns := 0
          active_monitoring_start_time_ns := 5000000
          unavailable_host_start_time_ns := 0
          current_failure_count := 0
          is_host_unavailable := false
          is_active := true
          has_connection := true }
        "host-a" 6000000 7000000 false).1.is_host_unavailable = true ↔
      (7000000 : Int) - 6000000 > 1000 * max 0 0 * 1000000) :=
  (update_host_status_failed_probe_spec _ "host-a" 6000000 7000000 rfl rfl rfl
    (by norm_num)).2.2.1

/-- Claim C2, counterexample: the unavailable flag does revert.  A context
with failure_detection_count = 0 becomes unavailable after one post-grace
failed probe, and a subsequent post-grace update with is_available = true
resets the flag to false. -/
theorem unavailable_flag_reverts_counterexample :
    ((update_host_status
        { failure_detection_time_ms := 0
          failure_detection_interval_ms := 0
          failure_detection_count := 0
          monitor_start_time_ns := 0
          active_monitoring_start_time_ns := 0
          unavailable_host_start_time_ns := 0
          current_failure_count := 0
          is_host_unavailable := false
          is_active := true
          has_connection := true }
        "host-a" 1 2 false).1.is_host_unavailable = true) ∧
    ((update_host_status
        (update_host_status
          { failure_detection_time_ms := 0
            failure_detection_interval_ms := 0
            failure_detection_count := 0
            monitor_start_time_ns := 0
            active_monitoring_start_time_ns := 0
            unavailable_host_start_time_ns := 0
            current_failure_count := 0
            is_host_unavailable := false
            is_active := true
            has_connection := true }
          "host-a" 1 2 false).1
        "host-a" 3 4 true).1.is_host_unavailable = false) := by
  constructor <;> decide

/-- Claim C2 (amended): the unavailable flag is sticky along every sequence
of further update_host_status calls that report the host unavailable
(is_available = false); only an update reporting the host available can
reset it. -/
theorem unavailable_flag_sticky_under_failures (ctx : MonitoringContext)
    (calls : List StatusUpdate)
    (hun : ctx.is_host_unavailable = true)
    (hfail : ∀ u ∈ calls, u.is_available = false) :
    (applyStatusUpdates ctx calls).is_host_unavailable = true := by
  induction calls generalizing ctx with
  | nil => exact hun
  | cons u rest ih =>
    have hu : u.is_available = false := hfail u (List.mem_cons_self u rest)
    have hstep :
        (update_host_status ctx u.url u.start_ns u.end_ns u.is_available).1.is_host_unavailable
          = true := by
      rw [hu]
      exact update_host_status_failure_keeps_flag ctx u.url u.start_ns u.end_ns hun
    exact ih _ hstep (fun v hv => hfail v (List.mem_cons_of_mem u hv))

/-- Witness for C2 (amended): a concrete unavailable context stays
unavailable across two further failed-probe updates. -/
theorem unavailable_flag_sticky_under_failures_witness :
    (applyStatusUpdates
      { failure_detection_time_ms := 0
        failure_detection_interval_ms := 0
        failure_detection_count := 0
        monitor_start_time_ns := 0
        active_monitoring_start_time_ns := 0
        unavailable_host_start_time_ns := 1
        current_failure_count := 1
        is_host_unavailable := true
        is_active := true
        has_connection := true }
      [⟨"host-a", 3, 4, false⟩, ⟨"host-a", 5, 6, false⟩]).is_host_unavailable = true :=
  unavailable_flag_sticky_under_failures _ _ rfl (by
    intro u hu
    simp only [List.mem_cons, List.mem_singleton] at hu
    rcases hu with h | h | h
    · rw [h]
    · rw [h]
    · cases h)

/-- Claim C1, counterexample: with an unavailable verdict but a null dialect
(or a connection the dialect reports closed), execute marks the aliases
NOT_AVAILABLE yet neither closes the connection nor raises: the underlying
call's result is returned to the caller. -/
theorem execute_unavailable_no_dialect_counterexample :
    executeVerdictFinish true false false (7 : Nat) =
      (ExecOutcome.ok 7, true, false) := by
  decide

/-- Claim C1 (amended): when the context's verdict is unavailable, execute
always marks the monitoring host's aliases NOT_AVAILABLE; and provided the
dialect is present and reports the connection not closed, it closes the
underlying connection (best-effort) and raises the host-unavailable error,
overriding the underlying call's result. -/
theorem execute_unavailable_spec {α : Type} (dialect_present connection_closed : Bool)
    (result : α) :
    (executeVerdictFinish true dialect_present connection_closed result).2.1 = true ∧
    (dialect_present = true → connection_closed = false →
      executeVerdictFinish true dialect_present connection_closed result =
        (ExecOutcome.hostUnavailableError, true, true)) := by
  constructor
  · unfold executeVerdictFinish
    split
    · split <;> rfl
    · simp_all
  · intro hd hc
    unfold executeVerdictFinish
    simp [hd, hc]

/-- Witness for C1 (amended): with a live dialect and open connection the
unavailable verdict closes the connection and overrides a produced result. -/
theorem execute_unavailable_spec_witness :
    executeVerdictFinish true true false (7 : Nat) =
      (ExecOutcome.hostUnavailableError, true, true) :=
  (execute_unavailable_spec true false 7).2 rfl rfl

/- ### Reader failover (reader_failover_handler.py) -/

inductive HostRole where
  | writer
  | reader
deriving DecidableEq

inductive HostAvailability where
  | available
  | notAvailable
deriving DecidableEq

/-- HostInfo (external collaborator): the fields read by the failover code. -/
structure HostInfo where
  url : String
  role : HostRole
  availability : HostAvailability
deriving DecidableEq

/-- ReaderFailoverResult (failover_result.py, consumed here).  Connections and
exceptions are identified by numeric handles; a None field is Option.none. -/
structure ReaderFailoverResult where
  connection : Option Nat
  is_connected : Bool
  new_host : Option HostInfo
  exception : Option Nat
deriving DecidableEq

/-- ReaderFailoverHandlerImpl.failed_reader_failover_result (line 52). -/
def failed_reader_failover_result : ReaderFailoverResult :=
  { connection := none, is_connected := false, new_host := none, exception := none }

/-- Behaviour of the external plugin_service.force_connect for one host:
either it returns (a possibly null) connection or it raises exception ex. -/
inductive ForceConnectOutcome where
  | ok (conn : Option Nat)
  | err (ex : Nat)
deriving DecidableEq

/-- ReaderFailoverHandlerImpl.attempt_connection (lines 164-180).  The second
component is the availability the host aliases are marked with. -/
def attempt_connection (host : HostInfo) (outcome : ForceConnectOutcome)
    (is_network_exception : Nat → Bool) : ReaderFailoverResult × HostAvailability :=
  match outcome with
  | ForceConnectOutcome.ok conn =>
    ({ connection := conn, is_connected := true, new_host := some host,
       exception := none }, HostAvailability.available)
  | ForceConnectOutcome.err ex =>
    if is_network_exception ex then
      (failed_reader_failover_result, HostAvailability.notAvailable)
    else
      ({ connection := none, is_connected := false, new_host := none,
         exception := some ex }, HostAvailability.notAvailable)

/-- Oracle bundle resolving the external calls and the nondeterminism of the
thread pool: force_connect outcomes, the network-exception predicate, per
batch whether the second future finished first (batch_swapped) and how many
futures completed before the per-batch deadline (batch_completed), the two
shuffles, the strict-reader flag, the topology obtained by
force_refresh_host_list, and an exception aborting the internal task. -/
structure FailoverEnv where
  force_connect : HostInfo → ForceConnectOutcome
  is_network_exception : Nat → Bool
  batch_swapped : Nat → Bool
  batch_completed : Nat → Nat
  shuffle_active : List HostInfo → List HostInfo
  shuffle_down : List HostInfo → List HostInfo
  strict_reader_failover : Bool
  refreshed_hosts : List HostInfo
  task_error : Option Nat

/-- ReaderFailoverHandlerImpl._get_result_from_next_task_batch (lines
146-162) for the batch of index k.  The futures' results are listed in
completion order; only those completed before timeout_sec are observed.  The
first completed result that is connected or carries an exception is
returned.  The Bool is the shared _timeout_event after the call: the
source's finally-block (line 159-160) sets the event on every exit path, so
it is true unconditionally. -/
def batchResults (env : FailoverEnv) (pair : List HostInfo) (k : Nat) :
    List ReaderFailoverResult :=
  (if env.batch_swapped k then
      (pair.map (fun h =>
        (attempt_connection h (env.force_connect h) env.is_network_exception).1)).reverse
    else
      pair.map (fun h =>
        (attempt_connection h (env.force_connect h) env.is_network_exception).1)).take
    (env.batch_completed k)

def get_result_from_next_task_batch (env : FailoverEnv) (pair : List HostInfo)
    (k : Nat) : ReaderFailoverResult × Bool :=
  match (batchResults env pair k).find?
      (fun r => r.is_connected || r.exception.isSome) with
  | some r => (r, true)
  | none => (failed_reader_failover_result, true)

/-- The batches walked by _get_connection_from_host_group (lines 136-144):
hosts i and i+1 for i = 0, 2, 4, ... -/
def chunk2 {α : Type} : List α → List (List α)
  | [] => []
  | [a] => [[a]]
  | a :: b :: rest => [a, b] :: chunk2 rest

/-- ReaderFailoverHandlerImpl._get_connection_from_host_group (lines
136-144), also collecting the hosts whose attempt_connection futures were
submitted. -/
def get_connection_from_host_group_aux (env : FailoverEnv) :
    List (List HostInfo) → Nat → ReaderFailoverResult × List HostInfo
  | [], _ => (failed_reader_failover_result, [])
  | pair :: rest, k =>
    if (get_result_from_next_task_batch env pair k).1.is_connected
        || (get_result_from_next_task_batch env pair k).1.exception.isSome then
      ((get_result_from_next_task_batch env pair k).1, pair)
    else
      ((get_connection_from_host_group_aux env rest (k + 1)).1,
        pair ++ (get_connection_from_host_group_aux env rest (k + 1)).2)

def get_connection_from_host_group (env : FailoverEnv) (hosts : List HostInfo) :
    ReaderFailoverResult × List HostInfo :=
  get_connection_from_host_group_aux env (chunk2 hosts) 0

/-- Loop body of ReaderFailoverHandlerImpl.get_hosts_by_priority (lines
188-195): partition into active readers and down hosts, remembering the last
writer seen. -/
def hostsByPriorityStep
    (acc : List HostInfo × List HostInfo × Option HostInfo) (host : HostInfo) :
    List HostInfo × List HostInfo × Option HostInfo :=
  match acc with
  | (active_readers, down_hosts, writer_host) =>
    if host.role = HostRole.writer then (active_readers, down_hosts, some host)
    else if host.availability = HostAvailability.available then
      (active_readers ++ [host], down_hosts, writer_host)
    else (active_readers, down_hosts ++ [host], writer_host)

/-- ReaderFailoverHandlerImpl.get_hosts_by_priority (lines 182-206), with the
two in-place shuffles supplied as oracle permutations. -/
def get_hosts_by_priority (hosts : List HostInfo) (readers_only : Bool)
    (shuffle_active shuffle_down : List HostInfo → List HostInfo) :
    List HostInfo :=
  match hosts.foldl hostsByPriorityStep ([], [], none) with
  | (active_readers, down_hosts, writer_host) =>
    let active_shuffled := shuffle_active active_readers
    let down_shuffled := shuffle_down down_hosts
    let num_readers := active_shuffled.length + down_shuffled.length
    let hosts_by_priority :=
      match writer_host with
      | some w =>
        if readers_only = false ∨ num_readers = 0 then active_shuffled ++ [w]
        else active_shuffled
      | none => active_shuffled
    hosts_by_priority ++ down_shuffled

/-- Loop body of ReaderFailoverHandlerImpl.get_reader_hosts_by_priority
(lines 213-219): writers are skipped entirely. -/
def readerHostsStep (acc : List HostInfo × List HostInfo) (host : HostInfo) :
    List HostInfo × List HostInfo :=
  match acc with
  | (active_readers, down_hosts) =>
    if host.role = HostRole.writer then (active_readers, down_hosts)
    else if host.availability = HostAvailability.available then
      (active_readers ++ [host], down_hosts)
    else (active_readers, down_hosts ++ [host])

/-- ReaderFailoverHandlerImpl.get_reader_hosts_by_priority (lines 208-224). -/
def get_reader_hosts_by_priority (hosts : List HostInfo)
    (shuffle_active shuffle_down : List HostInfo → List HostInfo) :
    List HostInfo :=
  shuffle_active (hosts.foldl readerHostsStep ([], [])).1 ++
    shuffle_down (hosts.foldl readerHostsStep ([], [])).2

/-- ReaderFailoverHandlerImpl.get_reader_connection (lines 128-134); the
input is None or a host list, and the second component records the hosts
whose connection attempts were submitted. -/
def get_reader_connection (env : FailoverEnv) :
    Option (List HostInfo) → ReaderFailoverResult × List HostInfo
  | none => (failed_reader_failover_result, [])
  | some hs =>
    if hs.length = 0 then (failed_reader_failover_result, [])
    else
      get_connection_from_host_group env
        (get_reader_hosts_by_priority hs env.shuffle_active env.shuffle_down)

/-- ReaderFailoverHandlerImpl._failover_internal (lines 121-126); the
marking of the failed current host is an external effect not needed by the
claims, so only the connection search is modelled. -/
def failover_internal (env : FailoverEnv) (hosts : List HostInfo) :
    ReaderFailoverResult × List HostInfo :=
  get_connection_from_host_group env
    (get_hosts_by_priority hosts env.strict_reader_failover
      env.shuffle_active env.shuffle_down)

/-- Loop of ReaderFailoverHandlerImpl._internal_failover_task (lines
94-119).  fuel bounds the iterations of the while-loop before the shared
timeout event is observed set (it is set by every batch); on exhaustion the
loop exits and the sentinel is returned (line 119).  In strict-reader mode
a connected result is kept only if its host reappears as a READER in the
refreshed topology; otherwise the connection is closed and the loop
retries, against the refreshed topology when the result carried a host. -/
def internal_failover_task (env : FailoverEnv) :
    Nat → List HostInfo → ReaderFailoverResult
  | 0, _ => failed_reader_failover_result
  | fuel + 1, topology =>
    if (failover_internal env topology).1.is_connected then
      if env.strict_reader_failover = false then (failover_internal env topology).1
      else
        match (failover_internal env topology).1.new_host with
        | some nh =>
          if env.refreshed_hosts.any
              (fun n => (n.url == nh.url) && (n.role == HostRole.reader)) then
            (failover_internal env topology).1
          else internal_failover_task env fuel env.refreshed_hosts
        | none => internal_failover_task env fuel topology
    else internal_failover_task env fuel topology

/-- The try-except wrapper of _internal_failover_task (lines 95-117): an
exception raised anywhere in the task body becomes a failed result carrying
that exception. -/
def internal_failover_task_run (env : FailoverEnv) (fuel : Nat)
    (topology : List HostInfo) : ReaderFailoverResult :=
  match env.task_error with
  | some ex =>
    { connection := none, is_connected := false, new_host := none,
      exception := some ex }
  | none => internal_failover_task env fuel topology

/-- ReaderFailoverHandlerImpl.failover (lines 76-92): sentinel on a None or
empty topology; sentinel when the outer max_failover_timeout_sec expires
(the TimeoutError path, which also sets the shared event); otherwise the
internal task's result. -/
def failover (env : FailoverEnv) (current_topology : Option (List HostInfo))
    (outer_timeout : Bool) (fuel : Nat) : ReaderFailoverResult :=
  match current_topology with
  | none => failed_reader_failover_result
  | some topology =>
    if topology.length = 0 then failed_reader_failover_result
    else if outer_timeout then failed_reader_failover_result
    else internal_failover_task_run env fuel topology

/- ### Claim theorems C3 and C7 -/

/-- A reader host and oracle under which the single batch completes
immediately with a successful connection, well before any timeout. -/
def fast_batch_host : HostInfo :=
  { url := "reader-1", role := HostRole.reader,
    availability := HostAvailability.available }

def fast_batch_env : FailoverEnv :=
  { force_connect := fun _ => ForceConnectOutcome.ok (some 5)
    is_network_exception := fun _ => true
    batch_swapped := fun _ => false
    batch_completed := fun _ => 1
    shuffle_active := id
    shuffle_down := id
    strict_reader_failover := false
    refreshed_hosts := []
    task_error := none }

/-- Claim C3: the code sets the shared timeout event after a batch that
completed successfully before its per-batch deadline: the finally-block of
_get_result_from_next_task_batch sets the event on every exit path, not
only when a timeout expires, so the internal failover loop cannot run
further iterations after the first batch. -/
theorem batch_sets_timeout_event_without_timeout :
    (get_result_from_next_task_batch fast_batch_env [fast_batch_host] 0).1.is_connected
        = true ∧
    (get_result_from_next_task_batch fast_batch_env [fast_batch_host] 0).2 = true :=
  ⟨rfl, rfl⟩

/-- Claim C7: attempt_connection is a three-way case split on the
force_connect outcome: success marks the host AVAILABLE and returns a
connected result carrying the connection and the host; a network exception
marks NOT_AVAILABLE and returns the sentinel with a null exception; a
non-network exception marks NOT_AVAILABLE and returns a result carrying the
exception.  The exception field is non-null exactly in the non-network
case. -/
theorem attempt_connection_spec (host : HostInfo) (outcome : ForceConnectOutcome)
    (is_network_exception : Nat → Bool) :
    (∀ conn, outcome = ForceConnectOutcome.ok conn →
      attempt_connection host outcome is_network_exception =
        ({ connection := conn, is_connected := true, new_host := some host,
           exception := none }, HostAvailability.available)) ∧
    (∀ ex, outcome = ForceConnectOutcome.err ex → is_network_exception ex = true →
      attempt_connection host outcome is_network_exception =
        (failed_reader_failover_result, HostAvailability.notAvailable)) ∧
    (∀ ex, outcome = ForceConnectOutcome.err ex → is_network_exception ex = false →
      attempt_connection host outcome is_network_exception =
        ({ connection := none, is_connected := false, new_host := none,
           exception := some ex }, HostAvailability.notAvailable)) ∧
    ((attempt_connection host outcome is_network_exception).1.exception.isSome = true ↔
      ∃ ex, outcome = ForceConnectOutcome.err ex ∧ is_network_exception ex = false) := by
  refine ⟨?_, ?_, ?_, ?_⟩
  · intro conn hc
    subst hc
    rfl
  · intro ex hc hn
    subst hc
    simp [attempt_connection, hn]
  · intro ex hc hn
    subst hc
    simp [attempt_connection, hn]
  · cases outcome with
    | ok conn => simp [attempt_connection]
    | err ex =>
      by_cases hn : is_network_exception ex = true
      · simp [attempt_connection, hn, failed_reader_failover_result]
      · simp only [Bool.not_eq_true] at hn
        simp [attempt_connection, hn]

/-- Witness for C7: a concrete non-network failure is returned in the
exception field with the host marked NOT_AVAILABLE. -/
theorem attempt_connection_spec_witness :
    attempt_connection fast_batch_host (ForceConnectOutcome.err 3)
        (fun _ => false) =
      ({ connection := none, is_connected := false, new_host := none,
         exception := some 3 }, HostAvailability.notAvailable) :=
  (attempt_connection_spec fast_batch_host (ForceConnectOutcome.err 3)
    (fun _ => false)).2.2.1 3 rfl rfl

/- ### Characterization of the priority lists -/

/-- The active (non-writer, available) hosts in list order. -/
def activeReaderHosts : List HostInfo → List HostInfo
  | [] => []
  | h :: t =>
    if h.role = HostRole.writer then activeReaderHosts t
    else if h.availability = HostAvailability.available then h :: activeReaderHosts t
    else activeReaderHosts t

/-- The down (non-writer, not available) hosts in list order. -/
def downReaderHosts : List HostInfo → List HostInfo
  | [] => []
  | h :: t =>
    if h.role = HostRole.writer then downReaderHosts t
    else if h.availability = HostAvailability.available then downReaderHosts t
    else h :: downReaderHosts t

/-- The last writer of the list, which is what the loop's repeated
assignment to writer_host leaves behind. -/
def lastWriterHost : List HostInfo → Option HostInfo
  | [] => none
  | h :: t =>
    match lastWriterHost t with
    | some w => some w
    | none => if h.role = HostRole.writer then some h else none

lemma hostsByPriority_foldl (hosts : List HostInfo) :
    ∀ ar dh w, hosts.foldl hostsByPriorityStep (ar, dh, w) =
      (ar ++ activeReaderHosts hosts, dh ++ downReaderHosts hosts,
        match lastWriterHost hosts with
        | some x => some x
        | none => w) := by
  induction hosts with
  | nil =>
    intro ar dh w
    simp [activeReaderHosts, downReaderHosts, lastWriterHost]
  | cons h t ih =>
    intro ar dh w
    rw [List.foldl_cons]
    by_cases hw : h.role = HostRole.writer
    · rw [show hostsByPriorityStep (ar, dh, w) h = (ar, dh, some h) from by
        simp [hostsByPriorityStep, hw]]
      rw [ih]
      cases hlw : lastWriterHost t <;>
        simp [activeReaderHosts, downReaderHosts, lastWriterHost, hlw, hw]
    · by_cases ha : h.availability = HostAvailability.available
      · rw [show hostsByPriorityStep (ar, dh, w) h = (ar ++ [h], dh, w) from by
          simp [hostsByPriorityStep, hw, ha]]
        rw [ih]
        cases hlw : lastWriterHost t <;>
          simp [activeReaderHosts, downReaderHosts, lastWriterHost, hlw, hw, ha,
            List.append_assoc]
      · rw [show hostsByPriorityStep (ar, dh, w) h = (ar, dh ++ [h], w) from by
          simp [hostsByPriorityStep, hw, ha]]
        rw [ih]
        cases hlw : lastWriterHost t <;>
          simp [activeReaderHosts, downReaderHosts, lastWriterHost, hlw, hw, ha,
            List.append_assoc]

lemma hostsByPriority_collect (hosts : List HostInfo) :
    hosts.foldl hostsByPriorityStep ([], [], none) =
      (activeReaderHosts hosts, downReaderHosts hosts, lastWriterHost hosts) := by
  rw [hostsByPriority_foldl hosts [] [] none]
  cases hlw : lastWriterHost hosts <;> simp [hlw]

lemma readerHosts_foldl (hosts : List HostInfo) :
    ∀ ar dh, hosts.foldl readerHostsStep (ar, dh) =
      (ar ++ activeReaderHosts hosts, dh ++ downReaderHosts hosts) := by
  induction hosts with
  | nil =>
    intro ar dh
    simp [activeReaderHosts, downReaderHosts]
  | cons h t ih =>
    intro ar dh
    rw [List.foldl_cons]
    by_cases hw : h.role = HostRole.writer
    · rw [show readerHostsStep (ar, dh) h = (ar, dh) from by
        simp [readerHostsStep, hw]]
      rw [ih]
      simp [activeReaderHosts, downReaderHosts, hw]
    · by_cases ha : h.availability = HostAvailability.available
      · rw [show readerHostsStep (ar, dh) h = (ar ++ [h], dh) from by
          simp [readerHostsStep, hw, ha]]
        rw [ih]
        simp [activeReaderHosts, downReaderHosts, hw, ha, List.append_assoc]
      · rw [show readerHostsStep (ar, dh) h = (ar, dh ++ [h]) from by
          simp [readerHostsStep, hw, ha]]
        rw [ih]
        simp [activeReaderHosts, downReaderHosts, hw, ha, List.append_assoc]

lemma mem_activeReaderHosts {x : HostInfo} :
    ∀ {hosts : List HostInfo}, x ∈ activeReaderHosts hosts →
      x ∈ hosts ∧ x.role ≠ HostRole.writer ∧
        x.availability = HostAvailability.available := by
  intro hosts
  induction hosts with
  | nil => intro hx; cases hx
  | cons h t ih =>
    intro hx
    unfold activeReaderHosts at hx
    by_cases hw : h.role = HostRole.writer
    · rw [if_pos hw] at hx
      have := ih hx
      exact ⟨List.mem_cons_of_mem h this.1, this.2⟩
    · rw [if_neg hw] at hx
      by_cases ha : h.availability = HostAvailability.available
      · rw [if_pos ha] at hx
        rcases List.mem_cons.mp hx with hx | hx
        · subst hx
          exact ⟨List.mem_cons_self x t, hw, ha⟩
        · have := ih hx
          exact ⟨List.mem_cons_of_mem h this.1, this.2⟩
      · rw [if_neg ha] at hx
        have := ih hx
        exact ⟨List.mem_cons_of_mem h this.1, this.2⟩

lemma mem_downReaderHosts {x : HostInfo} :
    ∀ {hosts : List HostInfo}, x ∈ downReaderHosts hosts →
      x ∈ hosts ∧ x.role ≠ HostRole.writer ∧
        x.availability ≠ HostAvailability.available := by
  intro hosts
  induction hosts with
  | nil => intro hx; cases hx
  | cons h t ih =>
    intro hx
    unfold downReaderHosts at hx
    by_cases hw : h.role = HostRole.writer
    · rw [if_pos hw] at hx
      have := ih hx
      exact ⟨List.mem_cons_of_mem h this.1, this.2⟩
    · rw [if_neg hw] at hx
      by_cases ha : h.availability = HostAvailability.available
      · rw [if_pos ha] at hx
        have := ih hx
        exact ⟨List.mem_cons_of_mem h this.1, this.2⟩
      · rw [if_neg ha] at hx
        rcases List.mem_cons.mp hx with hx | hx
        · subst hx
          exact ⟨List.mem_cons_self x t, hw, ha⟩
        · have := ih hx
          exact ⟨List.mem_cons_of_mem h this.1, this.2⟩

lemma lastWriterHost_spec {w : HostInfo} :
    ∀ {hosts : List HostInfo}, lastWriterHost hosts = some w →
      w ∈ hosts ∧ w.role = HostRole.writer := by
  intro hosts
  induction hosts with
  | nil => intro hx; cases hx
  | cons h t ih =>
    intro hx
    unfold lastWriterHost at hx
    cases hlw : lastWriterHost t with
    | some x =>
      rw [hlw] at hx
      cases hx
      have := ih hlw
      exact ⟨List.mem_cons_of_mem h this.1, this.2⟩
    | none =>
      rw [hlw] at hx
      by_cases hw : h.role = HostRole.writer
      · rw [if_pos hw] at hx
        cases hx
        exact ⟨List.mem_cons_self w t, hw⟩
      · rw [if_neg hw] at hx
        cases hx

lemma nonwriter_mem_partition {x : HostInfo} :
    ∀ {hosts : List HostInfo}, x ∈ hosts → x.role ≠ HostRole.writer →
      x ∈ activeReaderHosts hosts ∨ x ∈ downReaderHosts hosts := by
  intro hosts
  induction hosts with
  | nil => intro hx; cases hx
  | cons h t ih =>
    intro hx hnw
    rcases List.mem_cons.mp hx with hx | hx
    · subst hx
      by_cases ha : x.availability = HostAvailability.available
      · left
        unfold activeReaderHosts
        rw [if_neg hnw, if_pos ha]
        exact List.mem_cons_self x _
      · right
        unfold downReaderHosts
        rw [if_neg hnw, if_neg ha]
        exact List.mem_cons_self x _
    · rcases ih hx hnw with hmem | hmem
      · left
        unfold activeReaderHosts
        by_cases hw : h.role = HostRole.writer
        · rw [if_pos hw]; exact hmem
        · rw [if_neg hw]
          by_cases ha : h.availability = HostAvailability.available
          · rw [if_pos ha]; exact List.mem_cons_of_mem h hmem
          · rw [if_neg ha]; exact hmem
      · right
        unfold downReaderHosts
        by_cases hw : h.role = HostRole.writer
        · rw [if_pos hw]; exact hmem
        · rw [if_neg hw]
          by_cases ha : h.availability = HostAvailability.available
          · rw [if_pos ha]; exact hmem
          · rw [if_neg ha]; exact List.mem_cons_of_mem h hmem

lemma partition_perm_filter (hosts : List HostInfo) :
    (activeReaderHosts hosts ++ downReaderHosts hosts).Perm
      (hosts.filter (fun h => decide (h.role ≠ HostRole.writer))) := by
  induction hosts with
  | nil => simp [activeReaderHosts, downReaderHosts]
  | cons h t ih =>
    by_cases hw : h.role = HostRole.writer
    · simpa [activeReaderHosts, downReaderHosts, List.filter_cons, hw] using ih
    · by_cases ha : h.availability = HostAvailability.available
      · simp only [activeReaderHosts, downReaderHosts, List.filter_cons, hw, ha,
          if_neg hw, if_pos ha, decide_not]
        simpa [hw] using ih.cons h
      · simp only [activeReaderHosts, downReaderHosts, List.filter_cons, hw, ha,
          if_neg hw, if_neg ha, decide_not]
        have hmid := @List.perm_middle _ h (activeReaderHosts t) (downReaderHosts t)
        simpa [hw] using hmid.trans (ih.cons h)

/-- Claim C6: get_hosts_by_priority decomposes, in both modes, as a
permutation of the active readers, then the writer when included (and it is
included in strict-reader mode only when the input holds no reader host at
all, available or down), then a permutation of the down readers; hence in
strict-reader mode a writer appears in the output only when the input
contains zero reader hosts. -/
theorem get_hosts_by_priority_spec (hosts : List HostInfo)
    (shuffle_active shuffle_down : List HostInfo → List HostInfo)
    (hA : ∀ l, (shuffle_active l).Perm l)
    (hD : ∀ l, (shuffle_down l).Perm l) :
    (∀ readers_only, ∃ ar wopt dh,
      get_hosts_by_priority hosts readers_only shuffle_active shuffle_down =
        ar ++ wopt ++ dh ∧
      ar.Perm (activeReaderHosts hosts) ∧
      dh.Perm (downReaderHosts hosts) ∧
      (∀ x ∈ wopt, x.role = HostRole.writer) ∧
      (wopt ≠ [] → readers_only = false ∨
        (activeReaderHosts hosts = [] ∧ downReaderHosts hosts = []))) ∧
    ((∃ x ∈ get_hosts_by_priority hosts true shuffle_active shuffle_down,
        x.role = HostRole.writer) →
      ∀ h ∈ hosts, h.role = HostRole.writer) := by
  have hcollect := hostsByPriority_collect hosts
  have hpart1 : ∀ readers_only, ∃ ar wopt dh,
      get_hosts_by_priority hosts readers_only shuffle_active shuffle_down =
        ar ++ wopt ++ dh ∧
      ar.Perm (activeReaderHosts hosts) ∧
      dh.Perm (downReaderHosts hosts) ∧
      (∀ x ∈ wopt, x.role = HostRole.writer) ∧
      (wopt ≠ [] → readers_only = false ∨
        (activeReaderHosts hosts = [] ∧ downReaderHosts hosts = [])) := by
    intro readers_only
    cases hlw : lastWriterHost hosts with
    | none =>
      refine ⟨shuffle_active (activeReaderHosts hosts), [],
        shuffle_down (downReaderHosts hosts), ?_, hA _, hD _, by simp, by simp⟩
      unfold get_hosts_by_priority
      rw [hcollect]
      simp [hlw]
    | some w =>
      by_cases hro : readers_only = false ∨
          (shuffle_active (activeReaderHosts hosts)).length +
            (shuffle_down (downReaderHosts hosts)).length = 0
      · refine ⟨shuffle_active (activeReaderHosts hosts), [w],
          shuffle_down (downReaderHosts hosts), ?_, hA _, hD _, ?_, ?_⟩
        · unfold get_hosts_by_priority
          rw [hcollect]
          simp only [hlw]
          rw [if_pos hro, List.append_assoc]
        · intro x hx
          rw [List.mem_singleton] at hx
          subst hx
          exact (lastWriterHost_spec hlw).2
        · intro _
          rcases hro with hro | hnum
          · exact Or.inl hro
          · refine Or.inr ⟨?_, ?_⟩
            · have h1 := (hA (activeReaderHosts hosts)).length_eq
              have h2 : (shuffle_active (activeReaderHosts hosts)).length = 0 := by
                omega
              exact List.eq_nil_of_length_eq_zero (h1 ▸ h2)
            · have h1 := (hD (downReaderHosts hosts)).length_eq
              have h2 : (shuffle_down (downReaderHosts hosts)).length = 0 := by
                omega
              exact List.eq_nil_of_length_eq_zero (h1 ▸ h2)
      · refine ⟨shuffle_active (activeReaderHosts hosts), [],
          shuffle_down (downReaderHosts hosts), ?_, hA _, hD _, by simp, by simp⟩
        unfold get_hosts_by_priority
        rw [hcollect]
        simp only [hlw]
        rw [if_neg hro]
        simp
  refine ⟨hpart1, ?_⟩
  rintro ⟨x, hx, hxw⟩
  obtain ⟨ar, wopt, dh, heq, har, hdh, hwopt, hnonempty⟩ := hpart1 true
  rw [heq] at hx
  rcases List.mem_append.mp hx with hx1 | hx2
  · rcases List.mem_append.mp hx1 with hx3 | hx4
    · exact absurd hxw (mem_activeReaderHosts (har.subset hx3)).2.1
    · have hne : wopt ≠ [] := List.ne_nil_of_mem hx4
      rcases hnonempty hne with hcontra | ⟨haR, hdR⟩
      · cases hcontra
      · intro h hmem
        by_contra hnw
        rcases nonwriter_mem_partition hmem hnw with hmem2 | hmem2
        · rw [haR] at hmem2; cases hmem2
        · rw [hdR] at hmem2; cases hmem2
  · exact absurd hxw (mem_downReaderHosts (hdh.subset hx2)).2.1

/-- Witness for C6: a concrete topology of one writer, one available reader
and one down reader, with identity shuffles. -/
theorem get_hosts_by_priority_spec_witness :
    ∃ ar wopt dh,
      get_hosts_by_priority
        [{ url := "w", role := HostRole.writer,
           availability := HostAvailability.available },
         { url := "r1", role := HostRole.reader,
           availability := HostAvailability.available },
         { url := "r2", role := HostRole.reader,
           availability := HostAvailability.notAvailable }] true id id =
        ar ++ wopt ++ dh ∧
      ar.Perm (activeReaderHosts
        [{ url := "w", role := HostRole.writer,
           availability := HostAvailability.available },
         { url := "r1", role := HostRole.reader,
           availability := HostAvailability.available },
         { url := "r2", role := HostRole.reader,
           availability := HostAvailability.notAvailable }]) ∧
      dh.Perm (downReaderHosts
        [{ url := "w", role := HostRole.writer,
           availability := HostAvailability.available },
         { url := "r1", role := HostRole.reader,
           availability := HostAvailability.available },
         { url := "r2", role := HostRole.reader,
           availability := HostAvailability.notAvailable }]) ∧
      (∀ x ∈ wopt, x.role = HostRole.writer) ∧
      (wopt ≠ [] → (true : Bool) = false ∨
        (activeReaderHosts
          [{ url := "w", role := HostRole.writer,
             availability := HostAvailability.available },
           { url := "r1", role := HostRole.reader,
             availability := HostAvailability.available },
           { url := "r2", role := HostRole.reader,
             availability := HostAvailability.notAvailable }] = [] ∧
         downReaderHosts
          [{ url := "w", role := HostRole.writer,
             availability := HostAvailability.available },
           { url := "r1", role := HostRole.reader,
             availability := HostAvailability.available },
           { url := "r2", role := HostRole.reader,
             availability := HostAvailability.notAvailable }] = [])) :=
  (get_hosts_by_priority_spec _ id id
    (fun l => List.Perm.refl l) (fun l => List.Perm.refl l)).1 true

/- ### Claim C10: reader-only priority list and get_reader_connection -/

lemma chunk2_join {α : Type} : ∀ (l : List α), (chunk2 l).flatten = l
  | [] => rfl
  | [_] => rfl
  | a :: b :: rest => by simp [chunk2, chunk2_join rest]

lemma group_aux_attempted (env : FailoverEnv) :
    ∀ (chunks : List (List HostInfo)) (k : Nat) (h : HostInfo),
      h ∈ (get_connection_from_host_group_aux env chunks k).2 →
        ∃ p ∈ chunks, h ∈ p := by
  intro chunks
  induction chunks with
  | nil =>
    intro k h hh
    cases hh
  | cons pair rest ih =>
    intro k h hh
    unfold get_connection_from_host_group_aux at hh
    split at hh
    · exact ⟨pair, List.mem_cons_self _ _, hh⟩
    · rcases List.mem_append.mp hh with hh1 | hh2
      · exact ⟨pair, List.mem_cons_self _ _, hh1⟩
      · obtain ⟨p, hp, hmem⟩ := ih (k + 1) h hh2
        exact ⟨p, List.mem_cons_of_mem pair hp, hmem⟩

lemma group_attempted_subset (env : FailoverEnv) (hosts : List HostInfo)
    (h : HostInfo) (hh : h ∈ (get_connection_from_host_group env hosts).2) :
    h ∈ hosts := by
  obtain ⟨p, hp, hmem⟩ := group_aux_attempted env (chunk2 hosts) 0 h hh
  have : h ∈ (chunk2 hosts).flatten := List.mem_flatten.mpr ⟨p, hp, hmem⟩
  rwa [chunk2_join] at this

lemma mem_get_reader_hosts_by_priority (hosts : List HostInfo)
    (shuffle_active shuffle_down : List HostInfo → List HostInfo)
    (hA : ∀ l, (shuffle_active l).Perm l)
    (hD : ∀ l, (shuffle_down l).Perm l)
    {h : HostInfo}
    (hh : h ∈ get_reader_hosts_by_priority hosts shuffle_active shuffle_down) :
    h.role ≠ HostRole.writer := by
  unfold get_reader_hosts_by_priority at hh
  rcases List.mem_append.mp hh with hh1 | hh2
  · have hmem := (hA _).subset hh1
    rw [readerHosts_foldl hosts [] []] at hmem
    simp only [List.nil_append] at hmem
    exact (mem_activeReaderHosts hmem).2.1
  · have hmem := (hD _).subset hh2
    rw [readerHosts_foldl hosts [] []] at hmem
    simp only [List.nil_append] at hmem
    exact (mem_downReaderHosts hmem).2.1

/-- Claim C10: get_reader_hosts_by_priority is a permutation of exactly the
non-writer hosts of the input; get_reader_connection returns the sentinel
with no connection attempts on a None or empty host list, and every host it
ever attempts is a non-writer. -/
theorem get_reader_connection_spec (env : FailoverEnv)
    (hA : ∀ l, (env.shuffle_active l).Perm l)
    (hD : ∀ l, (env.shuffle_down l).Perm l) :
    (∀ hosts : List HostInfo,
      (get_reader_hosts_by_priority hosts env.shuffle_active env.shuffle_down).Perm
        (hosts.filter (fun h => decide (h.role ≠ HostRole.writer)))) ∧
    get_reader_connection env none = (failed_reader_failover_result, []) ∧
    get_reader_connection env (some []) = (failed_reader_failover_result, []) ∧
    (∀ hosts : List HostInfo, ∀ h ∈ (get_reader_connection env (some hosts)).2,
      h.role ≠ HostRole.writer) := by
  refine ⟨?_, rfl, rfl, ?_⟩
  · intro hosts
    unfold get_reader_hosts_by_priority
    rw [readerHosts_foldl hosts [] []]
    simp only [List.nil_append]
    exact ((hA _).append (hD _)).trans (partition_perm_filter hosts)
  · intro hosts h hh
    simp only [get_reader_connection] at hh
    by_cases hlen : hosts.length = 0
    · rw [if_pos hlen] at hh
      cases hh
    · rw [if_neg hlen] at hh
      exact mem_get_reader_hosts_by_priority hosts env.shuffle_active
        env.shuffle_down hA hD (group_attempted_subset env _ h hh)

/-- Oracle for the C10 witness: identity shuffles, every connection attempt
failing with a network error. -/
def reader_priority_env : FailoverEnv :=
  { force_connect := fun _ => ForceConnectOutcome.err 1
    is_network_exception := fun _ => true
    batch_swapped := fun _ => false
    batch_completed := fun _ => 2
    shuffle_active := id
    shuffle_down := id
    strict_reader_failover := false
    refreshed_hosts := []
    task_error := none }

/-- Witness for C10: on a concrete mixed topology the reader priority list
is a permutation of the non-writer hosts. -/
theorem get_reader_connection_spec_witness :
    (get_reader_hosts_by_priority
      [{ url := "w", role := HostRole.writer,
         availability := HostAvailability.available },
       { url := "r1", role := HostRole.reader,
         availability := HostAvailability.available },
       { url := "r2", role := HostRole.reader,
         availability := HostAvailability.notAvailable }]
      reader_priority_env.shuffle_active reader_priority_env.shuffle_down).Perm
      ([{ url := "w", role := HostRole.writer,
          availability := HostAvailability.available },
        { url := "r1", role := HostRole.reader,
          availability := HostAvailability.available },
        { url := "r2", role := HostRole.reader,
          availability := HostAvailability.notAvailable }].filter
        (fun h => decide (h.role ≠ HostRole.writer))) :=
  (get_reader_connection_spec reader_priority_env
    (fun l => List.Perm.refl l) (fun l => List.Perm.refl l)).1 _

/- ### Claim C8: the ReaderFailoverResult invariant -/

/-- The spec invariant on ReaderFailoverResult: a connected result carries a
connection and a host. -/
def readerFailoverResultInvariant (r : ReaderFailoverResult) : Prop :=
  r.is_connected = true → r.connection.isSome = true ∧ r.new_host.isSome = true

lemma failed_result_invariant :
    readerFailoverResultInvariant failed_reader_failover_result := by
  intro h
  exact Bool.noConfusion h

lemma attempt_connection_invariant (host : HostInfo)
    (outcome : ForceConnectOutcome) (is_network_exception : Nat → Bool)
    (hok : ∀ conn, outcome = ForceConnectOutcome.ok conn → conn.isSome = true) :
    readerFailoverResultInvariant
      (attempt_connection host outcome is_network_exception).1 := by
  cases outcome with
  | ok conn =>
    intro _
    exact ⟨hok conn rfl, rfl⟩
  | err ex =>
    intro hconn
    by_cases hn : is_network_exception ex = true
    · simp [attempt_connection, hn, failed_reader_failover_result] at hconn
    · simp only [Bool.not_eq_true] at hn
      simp [attempt_connection, hn] at hconn

lemma mem_batchResults (env : FailoverEnv) (pair : List HostInfo) (k : Nat)
    {r : ReaderFailoverResult} (hr : r ∈ batchResults env pair k) :
    ∃ h ∈ pair, r =
      (attempt_connection h (env.force_connect h) env.is_network_exception).1 := by
  unfold batchResults at hr
  have hr2 := List.take_subset _ _ hr
  by_cases hsw : env.batch_swapped k = true
  · rw [if_pos hsw, List.mem_reverse] at hr2
    obtain ⟨h, hh, heq⟩ := List.mem_map.mp hr2
    exact ⟨h, hh, heq.symm⟩
  · rw [if_neg hsw] at hr2
    obtain ⟨h, hh, heq⟩ := List.mem_map.mp hr2
    exact ⟨h, hh, heq.symm⟩

lemma batch_result_cases (env : FailoverEnv) (pair : List HostInfo) (k : Nat) :
    (get_result_from_next_task_batch env pair k).1 = failed_reader_failover_result ∨
    ∃ h ∈ pair, (get_result_from_next_task_batch env pair k).1 =
      (attempt_connection h (env.force_connect h) env.is_network_exception).1 := by
  unfold get_result_from_next_task_batch
  split
  · rename_i r hf
    right
    obtain ⟨h, hh, heq⟩ :=
      mem_batchResults env pair k (List.mem_of_find?_eq_some hf)
    exact ⟨h, hh, heq⟩
  · left
    rfl

lemma batch_invariant (env : FailoverEnv) (pair : List HostInfo) (k : Nat)
    (hok : ∀ h conn, env.force_connect h = ForceConnectOutcome.ok conn →
      conn.isSome = true) :
    readerFailoverResultInvariant (get_result_from_next_task_batch env pair k).1 := by
  rcases batch_result_cases env pair k with hcase | ⟨h, _, heq⟩
  · rw [hcase]
    exact failed_result_invariant
  · rw [heq]
    exact attempt_connection_invariant h (env.force_connect h)
      env.is_network_exception (fun conn hc => hok h conn hc)

lemma group_aux_invariant (env : FailoverEnv)
    (hok : ∀ h conn, env.force_connect h = ForceConnectOutcome.ok conn →
      conn.isSome = true) :
    ∀ (chunks : List (List HostInfo)) (k : Nat),
      readerFailoverResultInvariant
        (get_connection_from_host_group_aux env chunks k).1 := by
  intro chunks
  induction chunks with
  | nil =>
    intro k
    exact failed_result_invariant
  | cons pair rest ih =>
    intro k
    unfold get_connection_from_host_group_aux
    split
    · exact batch_invariant env pair k hok
    · exact ih (k + 1)

lemma failover_internal_invariant (env : FailoverEnv)
    (hok : ∀ h conn, env.force_connect h = ForceConnectOutcome.ok conn →
      conn.isSome = true) (hosts : List HostInfo) :
    readerFailoverResultInvariant (failover_internal env hosts).1 :=
  group_aux_invariant env hok _ 0

lemma internal_failover_task_invariant (env : FailoverEnv)
    (hok : ∀ h conn, env.force_connect h = ForceConnectOutcome.ok conn →
      conn.isSome = true) :
    ∀ (fuel : Nat) (topology : List HostInfo),
      readerFailoverResultInvariant (internal_failover_task env fuel topology) := by
  intro fuel
  induction fuel with
  | zero =>
    intro _
    exact failed_result_invariant
  | succ n ih =>
    intro topology
    unfold internal_failover_task
    split
    · split
      · exact failover_internal_invariant env hok topology
      · split
        · split
          · exact failover_internal_invariant env hok topology
          · exact ih env.refreshed_hosts
        · exact ih topology
    · exact ih topology

lemma internal_failover_task_run_invariant (env : FailoverEnv)
    (hok : ∀ h conn, env.force_connect h = ForceConnectOutcome.ok conn →
      conn.isSome = true) (fuel : Nat) (topology : List HostInfo) :
    readerFailoverResultInvariant (internal_failover_task_run env fuel topology) := by
  unfold internal_failover_task_run
  split
  · intro hconn
    exact Bool.noConfusion hconn
  · exact internal_failover_task_invariant env hok fuel topology

lemma failover_invariant (env : FailoverEnv)
    (hok : ∀ h conn, env.force_connect h = ForceConnectOutcome.ok conn →
      conn.isSome = true) (current_topology : Option (List HostInfo))
    (outer_timeout : Bool) (fuel : Nat) :
    readerFailoverResultInvariant (failover env current_topology outer_timeout fuel) := by
  unfold failover
  split
  · exact failed_result_invariant
  · split
    · exact failed_result_invariant
    · split
      · exact failed_result_invariant
      · exact internal_failover_task_run_invariant env hok fuel _

lemma get_reader_connection_invariant (env : FailoverEnv)
    (hok : ∀ h conn, env.force_connect h = ForceConnectOutcome.ok conn →
      conn.isSome = true) (hosts : Option (List HostInfo)) :
    readerFailoverResultInvariant (get_reader_connection env hosts).1 := by
  cases hosts with
  | none => exact failed_result_invariant
  | some hs =>
    simp only [get_reader_connection]
    split
    · exact failed_result_invariant
    · exact group_aux_invariant env hok _ 0

/-- Claim C8: every ReaderFailoverResult produced by attempt_connection,
get_reader_connection or failover satisfies the invariant is_connected →
connection non-null and new_host non-null, under the hypothesis that the
external force_connect returns a non-null connection whenever it succeeds. -/
theorem reader_failover_result_invariant_spec (env : FailoverEnv)
    (host : HostInfo) (hosts current_topology : Option (List HostInfo))
    (outer_timeout : Bool) (fuel : Nat)
    (hok : ∀ h conn, env.force_connect h = ForceConnectOutcome.ok conn →
      conn.isSome = true) :
    readerFailoverResultInvariant
      (attempt_connection host (env.force_connect host) env.is_network_exception).1 ∧
    readerFailoverResultInvariant (get_reader_connection env hosts).1 ∧
    readerFailoverResultInvariant
      (failover env current_topology outer_timeout fuel) :=
  ⟨attempt_connection_invariant host _ _ (fun conn hc => hok host conn hc),
   get_reader_connection_invariant env hok hosts,
   failover_invariant env hok current_topology outer_timeout fuel⟩

/-- Oracle for the C8 witness: force_connect always succeeds with a concrete
non-null connection handle. -/
def invariant_witness_env : FailoverEnv :=
  { force_connect := fun _ => ForceConnectOutcome.ok (some 9)
    is_network_exception := fun _ => false
    batch_swapped := fun _ => false
    batch_completed := fun _ => 2
    shuffle_active := id
    shuffle_down := id
    strict_reader_failover := true
    refreshed_hosts := []
    task_error := none }

/-- Witness for C8: a concrete failover run under the non-null-connection
hypothesis satisfies the result invariant. -/
theorem reader_failover_result_invariant_spec_witness :
    readerFailoverResultInvariant
      (failover invariant_witness_env
        (some [{ url := "r1", role := HostRole.reader,
                 availability := HostAvailability.available }]) false 2) :=
  (reader_failover_result_invariant_spec invariant_witness_env
    { url := "r1", role := HostRole.reader,
      availability := HostAvailability.available }
    none
    (some [{ url := "r1", role := HostRole.reader,
             availability := HostAvailability.available }]) false 2
    (fun h conn hc => by cases hc; rfl)).2.2

/- ### Claim C9: probe property re-mapping in Monitor._check_host_status -/

/-- Monitor._MONITORING_PROPERTY_PREFIX = "monitoring-" (line 277), as a
character list; property keys are modelled as character lists. -/
def MONITORING_PROPERTY_MARKER : List Char := "monitoring-".toList

/-- Python dict lookup (None when absent). -/
def dictGet (d : List (List Char × Nat)) (k : List Char) : Option Nat :=
  (d.find? (fun p => p.1 == k)).map (fun p => p.2)

/-- Python dict assignment: update an existing binding in place, else
append at the end. -/
def dictSet : List (List Char × Nat) → List Char → Nat → List (List Char × Nat)
  | [], k, v => [(k, v)]
  | p :: rest, k, v =>
    if p.1 == k then (k, v) :: rest else p :: dictSet rest k v

/-- Python dict.pop(key, None). -/
def dictPop (d : List (List Char × Nat)) (k : List Char) :
    List (List Char × Nat) :=
  d.filter (fun p => !(p.1 == k))

/-- key.startswith(Monitor._MONITORING_PROPERTY_PREFIX). -/
def isMonitoringKey (k : List Char) : Bool :=
  MONITORING_PROPERTY_MARKER.isPrefixOf k

/-- key[len(Monitor._MONITORING_PROPERTY_PREFIX):len(key)]. -/
def monitoringSuffix (k : List Char) : List Char :=
  k.drop MONITORING_PROPERTY_MARKER.length

/-- One iteration of the re-mapping loop of Monitor._check_host_status
(lines 436-439): for a marker-headed key, bind the stripped key to the
value in the copy, then pop the original key from the copy. -/
def monitoringPropsStep (props_copy : List (List Char × Nat))
    (kv : List Char × Nat) : List (List Char × Nat) :=
  if isMonitoringKey kv.1 then
    dictPop (dictSet props_copy (monitoringSuffix kv.1) kv.2) kv.1
  else props_copy

/-- The probe property set built by Monitor._check_host_status (lines
435-439): start from a copy of props and run the loop over the items of the
original props, in order. -/
def monitoringPropsCopy (props : List (List Char × Nat)) :
    List (List Char × Nat) :=
  props.foldl monitoringPropsStep props

/-- The property set as claim C9 describes it: the original map with every
marker-headed key removed and, for each such key, its stripped suffix bound
to that key's value (replacing any plain key of the same name). -/
def specMonitoringStep (acc : List (List Char × Nat))
    (kv : List Char × Nat) : List (List Char × Nat) :=
  if isMonitoringKey kv.1 then dictSet acc (monitoringSuffix kv.1) kv.2
  else acc

def specMonitoringProps (props : List (List Char × Nat)) :
    List (List Char × Nat) :=
  props.foldl specMonitoringStep
    (props.filter (fun kv => !(isMonitoringKey kv.1)))

lemma isMonitoringKey_iff (k : List Char) :
    isMonitoringKey k = true ↔ ∃ t, MONITORING_PROPERTY_MARKER ++ t = k := by
  unfold isMonitoringKey
  rw [ List.isPrefixOf_iff_prefix]
  exact Iff.rfl

lemma monitoringSuffix_append (t : List Char) :
    monitoringSuffix (MONITORING_PROPERTY_MARKER ++ t) = t := by
  unfold monitoringSuffix
  exact List.drop_left MONITORING_PROPERTY_MARKER t

lemma isMonitoringKey_append (t : List Char) :
    isMonitoringKey (MONITORING_PROPERTY_MARKER ++ t) = true :=
  (isMonitoringKey_iff _).mpr ⟨t, rfl⟩

lemma marker_append_ne (k : List Char) : MONITORING_PROPERTY_MARKER ++ k ≠ k := by
  intro h
  have hlen := congrArg List.length h
  rw [List.length_append] at hlen
  have : MONITORING_PROPERTY_MARKER.length = 0 := by omega
  simp [MONITORING_PROPERTY_MARKER] at this

lemma prefixed_key_decompose {k : List Char} (hk : isMonitoringKey k = true) :
    k = MONITORING_PROPERTY_MARKER ++ monitoringSuffix k := by
  obtain ⟨t, ht⟩ := (isMonitoringKey_iff k).mp hk
  rw [← ht, monitoringSuffix_append]

lemma dictGet_set :
    ∀ (d : List (List Char × Nat)) (k1 : List Char) (v : Nat) (k : List Char),
      dictGet (dictSet d k1 v) k = if k = k1 then some v else dictGet d k
  | [], k1, v, k => by
    by_cases h : k = k1
    · subst h
      simp [dictSet, dictGet, List.find?]
    · have hbeq : (k1 == k) = false := by
        rw [beq_eq_false_iff_ne]
        exact fun hc => h hc.symm
      simp [dictSet, dictGet, List.find?, hbeq, h]
  | p :: rest, k1, v, k => by
    by_cases hp : p.1 = k1
    · have hbeq1 : (p.1 == k1) = true := beq_iff_eq.mpr hp
      rw [show dictSet (p :: rest) k1 v = (k1, v) :: rest from by
        simp [dictSet, hbeq1]]
      by_cases h : k = k1
      · subst h
        simp [dictGet, List.find?]
      · have hbeq2 : (k1 == k) = false := by
          rw [beq_eq_false_iff_ne]
          exact fun hc => h hc.symm
        have hbeq3 : (p.1 == k) = false := by
          rw [beq_eq_false_iff_ne]
          rw [hp]
          exact fun hc => h hc.symm
        simp [dictGet, List.find?, hbeq2, hbeq3, h]
    · have hbeq1 : (p.1 == k1) = false := by
        rw [beq_eq_false_iff_ne]
        exact hp
      rw [show dictSet (p :: rest) k1 v = p :: dictSet rest k1 v from by
        simp [dictSet, hbeq1]]
      by_cases hk : p.1 = k
      · have hbeq2 : (p.1 == k) = true := beq_iff_eq.mpr hk
        have h : ¬ k = k1 := fun hc => hp (hk.trans hc)
        simp [dictGet, List.find?, hbeq2, h]
      · have hbeq2 : (p.1 == k) = false := by
          rw [beq_eq_false_iff_ne]
          exact hk
        rw [show dictGet (p :: dictSet rest k1 v) k = dictGet (dictSet rest k1 v) k from by
          simp [dictGet, List.find?, hbeq2]]
        rw [dictGet_set rest k1 v k]
        rw [show dictGet (p :: rest) k = dictGet rest k from by
          simp [dictGet, List.find?, hbeq2]]

lemma dictGet_pop :
    ∀ (d : List (List Char × Nat)) (k1 k : List Char),
      dictGet (dictPop d k1) k = if k = k1 then none else dictGet d k
  | [], k1, k => by
    by_cases h : k = k1 <;> simp [dictPop, dictGet, List.find?, h]
  | p :: rest, k1, k => by
    by_cases hp : p.1 = k1
    · have hbeq1 : (p.1 == k1) = true := beq_iff_eq.mpr hp
      rw [show dictPop (p :: rest) k1 = dictPop rest k1 from by
        simp [dictPop, hbeq1]]
      rw [dictGet_pop rest k1 k]
      by_cases h : k = k1
      · simp [h]
      · have hbeq3 : (p.1 == k) = false := by
          rw [beq_eq_false_iff_ne]
          rw [hp]
          exact fun hc => h hc.symm
        simp [dictGet, List.find?, hbeq3, h]
    · have hbeq1 : (p.1 == k1) = false := by
        rw [beq_eq_false_iff_ne]
        exact hp
      rw [show dictPop (p :: rest) k1 = p :: dictPop rest k1 from by
        simp [dictPop, hbeq1]]
      by_cases hk : p.1 = k
      · have hbeq2 : (p.1 == k) = true := beq_iff_eq.mpr hk
        have h : ¬ k = k1 := fun hc => hp (hk.trans hc)
        simp [dictGet, List.find?, hbeq2, h]
      · have hbeq2 : (p.1 == k) = false := by
          rw [beq_eq_false_iff_ne]
          exact hk
        rw [show dictGet (p :: dictPop rest k1) k = dictGet (dictPop rest k1) k from by
          simp [dictGet, List.find?, hbeq2]]
        rw [dictGet_pop rest k1 k]
        rw [show dictGet (p :: rest) k = dictGet rest k from by
          simp [dictGet, List.find?, hbeq2]]

lemma monitoringPropsStep_get (acc : List (List Char × Nat))
    (kv : List Char × Nat) (k : List Char) :
    dictGet (monitoringPropsStep acc kv) k =
      if isMonitoringKey kv.1 = true then
        (if k = kv.1 then none
         else if k = monitoringSuffix kv.1 then some kv.2
         else dictGet acc k)
      else dictGet acc k := by
  unfold monitoringPropsStep
  by_cases hm : isMonitoringKey kv.1 = true
  · rw [if_pos hm, if_pos hm, dictGet_pop, dictGet_set]
  · rw [if_neg hm, if_neg hm]

lemma specMonitoringStep_get (acc : List (List Char × Nat))
    (kv : List Char × Nat) (k : List Char) :
    dictGet (specMonitoringStep acc kv) k =
      if isMonitoringKey kv.1 = true then
        (if k = monitoringSuffix kv.1 then some kv.2 else dictGet acc k)
      else dictGet acc k := by
  unfold specMonitoringStep
  by_cases hm : isMonitoringKey kv.1 = true
  · rw [if_pos hm, if_pos hm, dictGet_set]
  · rw [if_neg hm, if_neg hm]

lemma codeFold_get_marked (k : List Char) (hk : isMonitoringKey k = true) :
    ∀ (l acc : List (List Char × Nat)),
      (∀ kv ∈ l, isMonitoringKey kv.1 = true →
        isMonitoringKey (monitoringSuffix kv.1) = false) →
      dictGet (l.foldl monitoringPropsStep acc) k =
        (if l.any (fun kv => kv.1 == k) then none else dictGet acc k)
  | [], acc, _ => by simp
  | kv :: rest, acc, hgood => by
    rw [List.foldl_cons]
    rw [codeFold_get_marked k hk rest (monitoringPropsStep acc kv)
      (fun x hx => hgood x (List.mem_cons_of_mem kv hx))]
    rw [List.any_cons]
    by_cases hany : rest.any (fun kv2 => kv2.1 == k) = true
    · simp [hany]
    · simp only [Bool.not_eq_true] at hany
      rw [hany]
      rw [monitoringPropsStep_get]
      by_cases hm : isMonitoringKey kv.1 = true
      · rw [if_pos hm]
        have hsuf : ¬ k = monitoringSuffix kv.1 := by
          intro hc
          have hgm := hgood kv (List.mem_cons_self kv rest) hm
          rw [← hc, hk] at hgm
          cases hgm
        by_cases h1 : k = kv.1
        · have hb : (kv.1 == k) = true := beq_iff_eq.mpr h1.symm
          simp [hb, h1]
        · have hb : (kv.1 == k) = false := by
            rw [beq_eq_false_iff_ne]
            exact fun hc => h1 hc.symm
          simp [hb, h1, hsuf]
      · rw [if_neg hm]
        have h1 : kv.1 ≠ k := fun hc => hm (by rw [hc]; exact hk)
        have hb : (kv.1 == k) = false := by
          rw [beq_eq_false_iff_ne]
          exact h1
        simp [hb]

lemma specFold_get_marked (k : List Char) (hk : isMonitoringKey k = true) :
    ∀ (l acc : List (List Char × Nat)),
      (∀ kv ∈ l, isMonitoringKey kv.1 = true →
        isMonitoringKey (monitoringSuffix kv.1) = false) →
      dictGet (l.foldl specMonitoringStep acc) k = dictGet acc k
  | [], _, _ => by simp
  | kv :: rest, acc, hgood => by
    rw [List.foldl_cons]
    rw [specFold_get_marked k hk rest (specMonitoringStep acc kv)
      (fun x hx => hgood x (List.mem_cons_of_mem kv hx))]
    rw [specMonitoringStep_get]
    by_cases hm : isMonitoringKey kv.1 = true
    · rw [if_pos hm]
      have hsuf : ¬ k = monitoringSuffix kv.1 := by
        intro hc
        have hgm := hgood kv (List.mem_cons_self kv rest) hm
        rw [← hc, hk] at hgm
        cases hgm
      rw [if_neg hsuf]
    · rw [if_neg hm]

lemma codeFold_get_plain (k : List Char) (hk : isMonitoringKey k = false) :
    ∀ (l acc : List (List Char × Nat)),
      (l.map Prod.fst).Nodup →
      dictGet (l.foldl monitoringPropsStep acc) k =
        (match l.find? (fun kv => kv.1 == MONITORING_PROPERTY_MARKER ++ k) with
         | some kv => some kv.2
         | none => dictGet acc k)
  | [], acc, _ => by simp
  | kv :: rest, acc, hnodup => by
    rw [List.map_cons] at hnodup
    have hnotmem : kv.1 ∉ rest.map Prod.fst := (List.nodup_cons.mp hnodup).1
    have hnd2 : (rest.map Prod.fst).Nodup := (List.nodup_cons.mp hnodup).2
    rw [List.foldl_cons]
    rw [codeFold_get_plain k hk rest (monitoringPropsStep acc kv) hnd2]
    by_cases hkv : kv.1 = MONITORING_PROPERTY_MARKER ++ k
    · have hbeq : (kv.1 == MONITORING_PROPERTY_MARKER ++ k) = true :=
        beq_iff_eq.mpr hkv
      have hfind : rest.find?
          (fun kv2 => kv2.1 == MONITORING_PROPERTY_MARKER ++ k) = none := by
        rw [List.find?_eq_none]
        intro x hx hbx
        apply hnotmem
        rw [hkv, ← beq_iff_eq.mp hbx]
        exact List.mem_map_of_mem Prod.fst hx
      rw [hfind]
      rw [show (kv :: rest).find?
          (fun kv2 => kv2.1 == MONITORING_PROPERTY_MARKER ++ k) = some kv from by
        simp [List.find?, hbeq]]
      show dictGet (monitoringPropsStep acc kv) k = some kv.2
      rw [monitoringPropsStep_get]
      have hm : isMonitoringKey kv.1 = true := by
        rw [hkv]
        exact isMonitoringKey_append k
      rw [if_pos hm]
      have h1 : ¬ k = kv.1 := by
        rw [hkv]
        exact fun hc => marker_append_ne k hc.symm
      rw [if_neg h1]
      have h2 : k = monitoringSuffix kv.1 := by
        rw [hkv, monitoringSuffix_append]
      rw [if_pos h2]
    · have hbeq : (kv.1 == MONITORING_PROPERTY_MARKER ++ k) = false := by
        rw [beq_eq_false_iff_ne]
        exact hkv
      rw [show (kv :: rest).find?
          (fun kv2 => kv2.1 == MONITORING_PROPERTY_MARKER ++ k) =
          rest.find? (fun kv2 => kv2.1 == MONITORING_PROPERTY_MARKER ++ k) from by
        simp [List.find?, hbeq]]
      cases hfind : rest.find?
          (fun kv2 => kv2.1 == MONITORING_PROPERTY_MARKER ++ k) with
      | some kv2 => rfl
      | none =>
        show dictGet (monitoringPropsStep acc kv) k = dictGet acc k
        rw [monitoringPropsStep_get]
        by_cases hm : isMonitoringKey kv.1 = true
        · rw [if_pos hm]
          have h1 : ¬ k = kv.1 := by
            intro hc
            rw [← hc, hk] at hm
            cases hm
          have h2 : ¬ k = monitoringSuffix kv.1 := by
            intro hc
            apply hkv
            rw [prefixed_key_decompose hm, ← hc]
          rw [if_neg h1, if_neg h2]
        · rw [if_neg hm]

lemma specFold_get_plain (k : List Char) (hk : isMonitoringKey k = false) :
    ∀ (l acc : List (List Char × Nat)),
      (l.map Prod.fst).Nodup →
      dictGet (l.foldl specMonitoringStep acc) k =
        (match l.find? (fun kv => kv.1 == MONITORING_PROPERTY_MARKER ++ k) with
         | some kv => some kv.2
         | none => dictGet acc k)
  | [], acc, _ => by simp
  | kv :: rest, acc, hnodup => by
    rw [List.map_cons] at hnodup
    have hnotmem : kv.1 ∉ rest.map Prod.fst := (List.nodup_cons.mp hnodup).1
    have hnd2 : (rest.map Prod.fst).Nodup := (List.nodup_cons.mp hnodup).2
    rw [List.foldl_cons]
    rw [specFold_get_plain k hk rest (specMonitoringStep acc kv) hnd2]
    by_cases hkv : kv.1 = MONITORING_PROPERTY_MARKER ++ k
    · have hbeq : (kv.1 == MONITORING_PROPERTY_MARKER ++ k) = true :=
        beq_iff_eq.mpr hkv
      have hfind : rest.find?
          (fun kv2 => kv2.1 == MONITORING_PROPERTY_MARKER ++ k) = none := by
        rw [List.find?_eq_none]
        intro x hx hbx
        apply hnotmem
        rw [hkv, ← beq_iff_eq.mp hbx]
        exact List.mem_map_of_mem Prod.fst hx
      rw [hfind]
      rw [show (kv :: rest).find?
          (fun kv2 => kv2.1 == MONITORING_PROPERTY_MARKER ++ k) = some kv from by
        simp [List.find?, hbeq]]
      show dictGet (specMonitoringStep acc kv) k = some kv.2
      rw [specMonitoringStep_get]
      have hm : isMonitoringKey kv.1 = true := by
        rw [hkv]
        exact isMonitoringKey_append k
      rw [if_pos hm]
      have h2 : k = monitoringSuffix kv.1 := by
        rw [hkv, monitoringSuffix_append]
      rw [if_pos h2]
    · have hbeq : (kv.1 == MONITORING_PROPERTY_MARKER ++ k) = false := by
        rw [beq_eq_false_iff_ne]
        exact hkv
      rw [show (kv :: rest).find?
          (fun kv2 => kv2.1 == MONITORING_PROPERTY_MARKER ++ k) =
          rest.find? (fun kv2 => kv2.1 == MONITORING_PROPERTY_MARKER ++ k) from by
        simp [List.find?, hbeq]]
      cases hfind : rest.find?
          (fun kv2 => kv2.1 == MONITORING_PROPERTY_MARKER ++ k) with
      | some kv2 => rfl
      | none =>
        show dictGet (specMonitoringStep acc kv) k = dictGet acc k
        rw [specMonitoringStep_get]
        by_cases hm : isMonitoringKey kv.1 = true
        · rw [if_pos hm]
          have h2 : ¬ k = monitoringSuffix kv.1 := by
            intro hc
            apply hkv
            rw [prefixed_key_decompose hm, ← hc]
          rw [if_neg h2]
        · rw [if_neg hm]

lemma filter_get_marked (k : List Char) (hk : isMonitoringKey k = true)
    (props : List (List Char × Nat)) :
    dictGet (props.filter (fun kv => !(isMonitoringKey kv.1))) k = none := by
  have hfind : (props.filter (fun kv => !(isMonitoringKey kv.1))).find?
      (fun p => p.1 == k) = none := by
    rw [List.find?_eq_none]
    intro x hx hbx
    have hxf := List.mem_filter.mp hx
    have hx1 : x.1 = k := beq_iff_eq.mp hbx
    rw [hx1, hk] at hxf
    exact Bool.noConfusion hxf.2
  simp [dictGet, hfind]

lemma filter_get_plain (k : List Char) (hk : isMonitoringKey k = false) :
    ∀ props : List (List Char × Nat),
      dictGet (props.filter (fun kv => !(isMonitoringKey kv.1))) k =
        dictGet props k
  | [] => rfl
  | kv :: rest => by
    by_cases hm : isMonitoringKey kv.1 = true
    · have hne : (kv.1 == k) = false := by
        rw [beq_eq_false_iff_ne]
        intro hc
        rw [hc, hk] at hm
        exact Bool.noConfusion hm
      rw [show (kv :: rest).filter (fun kv2 => !(isMonitoringKey kv2.1)) =
          rest.filter (fun kv2 => !(isMonitoringKey kv2.1)) from by
        simp [List.filter_cons, hm]]
      rw [filter_get_plain k hk rest]
      simp [dictGet, List.find?, hne]
    · rw [show (kv :: rest).filter (fun kv2 => !(isMonitoringKey kv2.1)) =
          kv :: rest.filter (fun kv2 => !(isMonitoringKey kv2.1)) from by
        simp only [List.filter_cons]
        have : (!(isMonitoringKey kv.1)) = true := by
          cases hiso : isMonitoringKey kv.1
          · rfl
          · exact absurd hiso hm
        simp [this]]
      by_cases hkk : kv.1 = k
      · have hbeq : (kv.1 == k) = true := beq_iff_eq.mpr hkk
        simp [dictGet, List.find?, hbeq]
      · have hbeq : (kv.1 == k) = false := by
          rw [beq_eq_false_iff_ne]
          exact hkk
        rw [show dictGet (kv :: rest.filter (fun kv2 => !(isMonitoringKey kv2.1))) k =
            dictGet (rest.filter (fun kv2 => !(isMonitoringKey kv2.1))) k from by
          simp [dictGet, List.find?, hbeq]]
        rw [filter_get_plain k hk rest]
        simp [dictGet, List.find?, hbeq]

lemma dictGet_eq_none_of_not_any (props : List (List Char × Nat))
    (k : List Char) (h : ¬ props.any (fun kv => kv.1 == k) = true) :
    dictGet props k = none := by
  have hfind : props.find? (fun p => p.1 == k) = none := by
    rw [List.find?_eq_none]
    intro x hx hbx
    exact h (List.any_eq_true.mpr ⟨x, hx, hbx⟩)
  simp [dictGet, hfind]

/-- Claim C9, counterexample: with the two monitoring keys
monitoring-monitoring-x and monitoring-x (in that insertion order) the loop
pops the re-added binding for monitoring-x, so the probe property set built
by the code maps monitoring-x to nothing, while the claim's described
result maps it to the double-prefixed key's value. -/
theorem monitoring_props_copy_counterexample :
    dictGet (monitoringPropsCopy
        [("monitoring-monitoring-x".toList, 2), ("monitoring-x".toList, 1)])
        ("monitoring-x".toList) = none ∧
    dictGet (specMonitoringProps
        [("monitoring-monitoring-x".toList, 2), ("monitoring-x".toList, 1)])
        ("monitoring-x".toList) = some 2 := by
  constructor <;> decide

/-- Claim C9 (amended): provided no key carries the monitoring marker twice
(no stripped suffix again starts with "monitoring-") and the keys are
distinct (as dict keys are), the probe property set built by
_check_host_status agrees, as a key-value map, with the claim's description:
the original map with every marker-headed key removed and each stripped
suffix bound to that key's value, the stripped binding replacing any plain
key of the same name; the original map itself is not modified (the fold is
pure on a copy). -/
theorem monitoring_props_copy_remap (props : List (List Char × Nat))
    (hnodup : (props.map Prod.fst).Nodup)
    (hgood : ∀ kv ∈ props, isMonitoringKey kv.1 = true →
      isMonitoringKey (monitoringSuffix kv.1) = false) :
    ∀ k, dictGet (monitoringPropsCopy props) k =
      dictGet (specMonitoringProps props) k := by
  intro k
  unfold monitoringPropsCopy specMonitoringProps
  by_cases hk : isMonitoringKey k = true
  · rw [codeFold_get_marked k hk props props hgood]
    rw [specFold_get_marked k hk props _ hgood]
    rw [filter_get_marked k hk props]
    by_cases hany : props.any (fun kv => kv.1 == k) = true
    · rw [if_pos hany]
    · rw [if_neg hany]
      exact dictGet_eq_none_of_not_any props k hany
  · have hk2 : isMonitoringKey k = false := by
      cases hiso : isMonitoringKey k
      · rfl
      · exact absurd hiso hk
    rw [codeFold_get_plain k hk2 props props hnodup]
    rw [specFold_get_plain k hk2 props _ hnodup]
    cases hfind : props.find?
        (fun kv => kv.1 == MONITORING_PROPERTY_MARKER ++ k) with
    | some kv => rfl
    | none =>
      show dictGet props k =
        dictGet (props.filter (fun kv => !(isMonitoringKey kv.1))) k
      rw [filter_get_plain k hk2 props]

/-- Witness for C9 (amended): a concrete map with one monitoring key and one
plain key agrees with the described re-mapping at the stripped key. -/
theorem monitoring_props_copy_remap_witness :
    dictGet (monitoringPropsCopy
        [("monitoring-x".toList, 1), ("y".toList, 2)]) ("x".toList) =
      dictGet (specMonitoringProps
        [("monitoring-x".toList, 1), ("y".toList, 2)]) ("x".toList) :=
  monitoring_props_copy_remap
    [("monitoring-x".toList, 1), ("y".toList, 2)]
    (by decide) (by decide) ("x".toList)
